import Mathlib

/-!
Shallow embedding of the `shadow-rs` constant-registry and code-emission
pipeline (`src/shadow.rs`), together with theorems checking the
natural-language specification against it.

Conventions of the embedding:
* `BTreeMap<String, _>` values are modelled as association lists with the
  b-tree invariant (strictly sorted, hence unique, keys); `btree_get`,
  `btree_insert`, `btree_remove` model `get`/`insert`/`remove`.  Iteration
  order of a `BTreeMap` is its list order.
* Fallible Rust code returning `SdResult` is modelled with `Except`;
  a panic (`unwrap`) is modelled by `Option.none` around the result.
* Writes performed by the run (to the output file, and cargo directives
  printed for the host build system) are collected into a list of `Event`s
  in the order the program performs them; the `DateTime::now().to_rfc2822()`
  timestamp is passed in as an opaque string parameter.
* Collaborator code of this repository that is not under `src/`
  (`build.rs`, `gen_const.rs`, the error enum) is modelled from the spec;
  each such definition's doc comment starts with `Modelled from the spec:`.
-/

namespace ShadowRs

/-- `ConstType` (crate `build.rs`): the kind of an emitted constant. -/
inductive ConstType
  | str
  | bool
  | slice
deriving DecidableEq

/-- Modelled from the spec: the `Display` rendering of `ConstType` used in
emitted definitions lives in the crate's `build.rs`, which is not under
`src/`; the repository's own test asserts `pub const CARGO_TREE :&str`,
fixing the `Str` rendering, and `Bool`/`Slice` render as the corresponding
Rust types. -/
def ConstType.display : ConstType → String
  | ConstType.str => "&str"
  | ConstType.bool => "bool"
  | ConstType.slice => "&[u8]"

/-- `ConstVal` (crate `build.rs`): kind, raw textual value, description. -/
structure ConstVal where
  t : ConstType
  v : String
  desc : String
deriving DecidableEq

/-- `ShadowConst` — a constant identifier (a string key). -/
abbrev ShadowConst := String

/-- The registry: a `BTreeMap<ShadowConst, ConstVal>` as an association
list in key order. -/
abbrev Registry := List (ShadowConst × ConstVal)

/-- `CiType` (crate `ci.rs`, interface only): the CI classification. -/
inductive CiType
  | gitlab
  | github
  | none
deriving DecidableEq

/-- Modelled from the spec: `BuildPattern` (crate `build.rs`, not under
`src/`) — the rebuild-trigger policy `{ Lazy, RealTime, Custom(keys) }`. -/
inductive BuildPattern
  | lazy
  | realTime
  | custom (keys : List String)
deriving DecidableEq

/-- Modelled from the spec: the crate's error enum is not under `src/`;
the spec taxonomy (§7) names `IOError` and `MalformedConstant`. -/
inductive SdError
  | ioError : String → SdError
  | malformedConstant : String → SdError
deriving DecidableEq

/-- `SdResult<T>` of the crate. -/
abbrev SdResult (α : Type) := Except SdError α

instance {ε α : Type} [DecidableEq ε] [DecidableEq α] : DecidableEq (Except ε α)
  | Except.error a, Except.error b =>
    if h : a = b then isTrue (by rw [h])
    else isFalse (by intro hh; cases hh; exact h rfl)
  | Except.error _, Except.ok _ => isFalse (by intro hh; cases hh)
  | Except.ok _, Except.error _ => isFalse (by intro hh; cases hh)
  | Except.ok a, Except.ok b =>
    if h : a = b then isTrue (by rw [h])
    else isFalse (by intro hh; cases hh; exact h rfl)

/-- One observable output action of a run: a cargo directive emitted for
the host build system, a write to the generated output file, or an
invocation of the caller-supplied hook function. -/
inductive Event
  | dir : String → Event
  | file : String → Event
  | hookCall : Event
deriving DecidableEq

/-- `BTreeMap::get`. -/
def btree_get {α : Type} : List (String × α) → String → Option α
  | [], _ => Option.none
  | (k, v) :: rest, key => if k = key then some v else btree_get rest key

/-- `BTreeMap::keys` (in map order). -/
def btree_keys {α : Type} (m : List (String × α)) : List String :=
  m.map Prod.fst

/-- `BTreeMap::remove` — drops the (unique, by the b-tree invariant) entry
with the given key. -/
def btree_remove {α : Type} (m : List (String × α)) (k : String) :
    List (String × α) :=
  m.filter (fun kv => kv.1 != k)

/-- Lexicographic order on character lists by code point; on strings this
coincides with the byte order `BTreeMap<String, _>` sorts by, since UTF-8
preserves code-point order. -/
def chars_lt : List Char → List Char → Bool
  | [], [] => false
  | [], _ :: _ => true
  | _ :: _, [] => false
  | a :: as, b :: bs =>
    if a.toNat < b.toNat then true
    else if a.toNat = b.toNat then chars_lt as bs
    else false

/-- The string order of `Ord for String` used by `BTreeMap`. -/
def str_lt (a b : String) : Bool := chars_lt a.data b.data

/-- `BTreeMap::insert` — sorted insert, replacing an existing key. -/
def btree_insert {α : Type} : List (String × α) → String → α → List (String × α)
  | [], k, v => [(k, v)]
  | (k', v') :: rest, k, v =>
    if str_lt k k' then (k, v) :: (k', v') :: rest
    else if k = k' then (k, v) :: rest
    else (k', v') :: btree_insert rest k v

/-- `Shadow::filter_deny`: `self.deny_const.iter().for_each(|x| { self.map.remove(&**x); })`. -/
def filter_deny (deny : List String) (m : Registry) : Registry :=
  deny.foldl (fun acc x => btree_remove acc x) m

/-- Strict sortedness of a key list (the `BTreeMap` invariant). -/
def sorted_keys : List String → Bool
  | [] => true
  | [_] => true
  | a :: b :: rest => str_lt a b && sorted_keys (b :: rest)

/-- `str::parse::<bool>()`: only the exact literals parse. -/
def parse_bool : String → Option Bool
  | "true" => some true
  | "false" => some false
  | _ => Option.none

/-- `DEFINE_SHADOW_RS` — the fixed output filename. -/
def DEFINE_SHADOW_RS : String := "shadow.rs"

/-- Modelled from the spec: `TAG`, the designated tag identifier defined at
the crate root (not under `src/`). -/
def TAG : String := "TAG"

/-- Modelled from the spec: `CARGO_CLIPPY_ALLOW_ALL`, the crate-root lint
annotation (not under `src/`) attached to every emitted definition so that
downstream compilers do not warn. -/
def CARGO_CLIPPY_ALLOW_ALL : String := "#[allow(clippy::all)]"

/-- Modelled from the spec: the branch-based version function body
(`gen_const.rs`, not under `src/`); derives the version string from branch
name, short commit and dirty flag. -/
def version_branch_const : String :=
  "pub const fn version() -> str \x7b /* branch + short commit + dirty */ \x7d"

/-- Modelled from the spec: the tag-based version function body
(`gen_const.rs`, not under `src/`); derives the version string from the tag
value. -/
def version_tag_const : String :=
  "pub const fn version() -> str \x7b /* tag */ \x7d"

/-- Modelled from the spec: the branch-based clap-style long-version
function body (`gen_const.rs`, not under `src/`). -/
def clap_long_version_branch_const : String :=
  "pub const fn clap_long_version() -> str \x7b /* branch + short commit + dirty */ \x7d"

/-- Modelled from the spec: the tag-based clap-style long-version function
body (`gen_const.rs`, not under `src/`). -/
def clap_long_version_tag_const : String :=
  "pub const fn clap_long_version() -> str \x7b /* tag */ \x7d"

/-- Modelled from the spec: `BUILD_CONST_VERSION` (`gen_const.rs`), the
fixed, well-known identifier of the emitted version function. -/
def BUILD_CONST_VERSION : String := "version"

/-- Modelled from the spec: `BUILD_CONST_CLAP_LONG_VERSION`
(`gen_const.rs`), the fixed identifier of the clap-style long-version
function. -/
def BUILD_CONST_CLAP_LONG_VERSION : String := "clap_long_version"

/-- `Path::is_absolute` on unix: the path begins with a separator. -/
def is_absolute (s : String) : Bool :=
  match s.data with
  | [] => false
  | c :: _ => c == '/'

/-- `str::ends_with('/')`. -/
def ends_with_slash (s : String) : Bool :=
  s.data.getLast? == some '/'

/-- `Path::join` on unix: an absolute argument replaces the base; otherwise
the argument is appended, inserting a separator when the base lacks one. -/
def path_join (base arg : String) : String :=
  if is_absolute arg then arg
  else if ends_with_slash base then base ++ arg
  else base ++ "/" ++ arg

/-- The output artifact path computed by `Shadow::build_inner`:
`if !out_path.ends_with('/') { path.join(format!("{out_path}/{DEFINE_SHADOW_RS}")) } else { path.join(DEFINE_SHADOW_RS) }`
with `path = Path::new(out_path)`. -/
def out_file (out_path : String) : String :=
  if !(ends_with_slash out_path) then
    path_join out_path (out_path ++ "/" ++ DEFINE_SHADOW_RS)
  else
    path_join out_path DEFINE_SHADOW_RS

/-- `Shadow::try_ci`: check `GITLAB_CI` first, then `GITHUB_ACTIONS`; a
variable counts only when it equals `"true"`; otherwise `CiType::None`. -/
def try_ci (std_env : List (String × String)) : CiType :=
  let github_fallthrough :=
    match btree_get std_env "GITHUB_ACTIONS" with
    | some c => if c = "true" then CiType.github else CiType.none
    | Option.none => CiType.none
  match btree_get std_env "GITLAB_CI" with
  | some c => if c = "true" then CiType.gitlab else github_fallthrough
  | Option.none => github_fallthrough

/-- Modelled from the spec: the rebuild-trigger selector
(`BuildPattern::rerun_if` lives in the crate's `build.rs`, not under
`src/`).  `Lazy` yields no directive, `RealTime` unconditionally instructs
"always re-run", `Custom` yields one directive per listed identifier
intersected with the registry's actual key set. -/
def rerun_if (pattern : BuildPattern) (keys : List String) (out_dir : String) :
    List String :=
  match pattern with
  | BuildPattern.lazy => []
  | BuildPattern.realTime => ["rerun-always:" ++ out_dir]
  | BuildPattern.custom ks =>
    (keys.filter (fun k => ks.contains k)).map (fun k => "rerun-if-changed:" ++ k)

/-- The fixed part of the provenance header before the timestamp. -/
def header_front : String :=
  "// Code automatically generated by `shadow-rs` (https://github.com/baoyachi/shadow-rs), do not edit.\n// Author: https://www.github.com/baoyachi\n// Generation time: "

/-- The text after the timestamp in the header write: the raw string's
trailing newline plus the `\n\n` of the format argument plus the newline
appended by `writeln!`. -/
def header_suffix : String := "\n" ++ "\n\n" ++ "\n"

/-- `Shadow::gen_header`: one `writeln!` of the provenance banner with the
RFC-2822 timestamp (the timestamp string is a parameter of the model). -/
def gen_header (now_rfc2822 : String) : List Event :=
  [Event.file (header_front ++ now_rfc2822 ++ header_suffix)]

/-- A decimal digit character. -/
def digit_char : Nat → Char
  | 0 => '0' | 1 => '1' | 2 => '2' | 3 => '3' | 4 => '4'
  | 5 => '5' | 6 => '6' | 7 => '7' | 8 => '8' | _ => '9'

/-- Decimal digits of a natural number (fuelled structural recursion). -/
def nat_digits_aux : Nat → Nat → List Char
  | 0, _ => []
  | fuel + 1, n =>
    if n < 10 then [digit_char n]
    else nat_digits_aux fuel (n / 10) ++ [digit_char (n % 10)]

/-- Decimal rendering of a natural number (Rust's `Display for u8` etc.). -/
def nat_repr (n : Nat) : String := String.mk (nat_digits_aux (n + 1) n)

/-- `char::to_ascii_uppercase`. -/
def ascii_upper (c : Char) : Char :=
  if 97 ≤ c.toNat ∧ c.toNat ≤ 122 then Char.ofNat (c.toNat - 32) else c

/-- `str::to_ascii_uppercase`. -/
def to_ascii_uppercase (s : String) : String := String.mk (s.data.map ascii_upper)

/-- The UTF-8 encoding of one character, as byte values. -/
def utf8_bytes (c : Char) : List Nat :=
  let n := c.toNat
  if n < 128 then [n]
  else if n < 2048 then [192 + n / 64, 128 + n % 64]
  else if n < 65536 then [224 + n / 4096, 128 + (n / 64) % 64, 128 + n % 64]
  else [240 + n / 262144, 128 + (n / 4096) % 64, 128 + (n / 64) % 64, 128 + n % 64]

/-- Rust's `{:?}` rendering of `val.v.as_bytes()`: the UTF-8 bytes as a
bracketed, comma-separated decimal list. -/
def bytes_debug (s : String) : String :=
  "[" ++ String.intercalate ", "
    ((s.data.map utf8_bytes).flatten.map (fun b => nat_repr b)) ++ "]"

/-- `Shadow::write_const`: two `writeln!`s — the doc line carrying the
description, then the typed definition whose literal form depends on the
kind.  For `Bool` the raw value is parsed with
`val.v.parse::<bool>().unwrap()`: a failed parse panics, modelled as
`Option.none`; the function itself never constructs an `SdResult` error
(its `?`s are on `writeln!` I/O only, which the model treats as
infallible). -/
def write_const (shadow_const : ShadowConst) (val : ConstVal) :
    Option (SdResult (List String)) :=
  let desc := "#[doc=r#\"" ++ val.desc ++ "\"#]"
  let define : Option String :=
    match val.t with
    | ConstType.str =>
      some ("#[allow(dead_code)]\n" ++ CARGO_CLIPPY_ALLOW_ALL ++ "\npub const "
        ++ to_ascii_uppercase shadow_const ++ " :" ++ ConstType.str.display ++ " = r#\""
        ++ val.v ++ "\"#;")
    | ConstType.bool =>
      match parse_bool val.v with
      | some b =>
        some ("#[allow(dead_code)]\n" ++ CARGO_CLIPPY_ALLOW_ALL ++ "\npub const "
          ++ to_ascii_uppercase shadow_const ++ " :" ++ ConstType.bool.display ++ " = "
          ++ (if b then "true" else "false") ++ ";")
      | Option.none => Option.none
    | ConstType.slice =>
      some ("#[allow(dead_code)]\n" ++ CARGO_CLIPPY_ALLOW_ALL ++ "\npub const "
        ++ to_ascii_uppercase shadow_const ++ " :" ++ ConstType.slice.display ++ " = &"
        ++ bytes_debug val.v ++ ";")
  match define with
  | Option.none => Option.none
  | some d => some (Except.ok [desc ++ "\n", d ++ "\n" ++ "\n"])

/-- The `for (k, v) in self.map.clone()` loop of `Shadow::gen_const`,
propagating a panic (`Option.none`) or an error from any entry. -/
def write_consts : Registry → Option (SdResult (List Event))
  | [] => some (Except.ok [])
  | (k, v) :: rest =>
    match write_const k v with
    | Option.none => Option.none
    | some (Except.error e) => some (Except.error e)
    | some (Except.ok lines) =>
      match write_consts rest with
      | Option.none => Option.none
      | some (Except.error e) => some (Except.error e)
      | some (Except.ok evs) => some (Except.ok (lines.map Event.file ++ evs))

/-- The file lines `write_const` produces for one entry, as events (empty
only in the panic case, which consumers exclude). -/
def const_lines (k : ShadowConst) (v : ConstVal) : List Event :=
  match write_const k v with
  | some (Except.ok ls) => ls.map Event.file
  | _ => []

/-- The constant section of the artifact: one doc line plus one typed
definition per registry entry, in map (= sorted key) order. -/
def const_section : Registry → List Event
  | [] => []
  | kv :: rest => const_lines kv.1 kv.2 ++ const_section rest

/-- `Shadow::gen_const`: first the rebuild-trigger directives computed from
the registry's key set, then the per-entry constant writes. -/
def gen_const (pattern : BuildPattern) (out_path : String) (m : Registry) :
    Option (SdResult (List Event)) :=
  match write_consts m with
  | Option.none => Option.none
  | some (Except.error e) => some (Except.error e)
  | some (Except.ok evs) =>
    some (Except.ok ((rerun_if pattern (btree_keys m) out_path).map Event.dir ++ evs))

/-- The version-definition pair chosen by `Shadow::gen_version` from the
registry's `TAG` entry. -/
def gen_version_pair (m : Registry) : String × String :=
  match btree_get m TAG with
  | Option.none => (version_branch_const, clap_long_version_branch_const)
  | some tag =>
    if !tag.v.isEmpty then (version_tag_const, clap_long_version_tag_const)
    else (version_branch_const, clap_long_version_branch_const)

/-- The two `writeln!`s of `Shadow::gen_version`. -/
def gen_version_events (m : Registry) : List Event :=
  [Event.file ((gen_version_pair m).1 ++ "\n" ++ "\n"),
   Event.file ((gen_version_pair m).2 ++ "\n" ++ "\n")]

/-- The vector `Shadow::gen_version` returns for the aggregate dump. -/
def gen_version_returns : List String :=
  [BUILD_CONST_VERSION, BUILD_CONST_CLAP_LONG_VERSION]

/-- One `print_build_in` line for a registry entry
(`Shadow::gen_build_in`, first loop). -/
def print_const_line (k : String) (t : ConstType) : String :=
  match t with
  | ConstType.str | ConstType.bool =>
    "\t" ++ "println!(\"" ++ k ++ ":\x7b" ++ k ++ "\x7d\\n\");" ++ "\n"
  | ConstType.slice =>
    "\t" ++ "println!(\"" ++ k ++ ":\x7b:?\x7d\\n\"," ++ k ++ ");" ++ "\n"

/-- One `print_build_in` line for a generated version function
(`Shadow::gen_build_in`, second loop). -/
def print_fn_line (k : String) : String :=
  "\t" ++ "println!(\"" ++ k ++ ":\x7b" ++ k ++ "\x7d\\n\");" ++ "\n"

/-- The `print_val` accumulator of `Shadow::gen_build_in`: one line per
registry entry in map order, then one line per version-function
identifier. -/
def print_val (m : Registry) (gen_const_fns : List String) : String :=
  "\n" ++ String.join (m.map (fun kv => print_const_line kv.1 kv.2.t))
       ++ String.join (gen_const_fns.map print_fn_line)

/-- The `everything_define` string of `Shadow::gen_build_in`. -/
def everything_define (m : Registry) (gen_const_fns : List String) : String :=
  "/// Prints all built-in `shadow-rs` build constants to standard output.\n"
  ++ "#[allow(dead_code)]\n" ++ CARGO_CLIPPY_ALLOW_ALL ++ "\n"
  ++ "pub fn print_build_in() \x7b" ++ print_val m gen_const_fns ++ "\x7d\n"

/-- Modelled from the spec: `cargo_metadata_fn` (`gen_const.rs`, not under
`src/`) — the metadata-summary function built from already-collected
facts; deterministic in the registry. -/
def cargo_metadata_fn (m : Registry) : String :=
  "pub fn cargo_metadata() -> str \x7b /* summary of "
  ++ nat_repr m.length ++ " collected facts */ \x7d"

/-- `Shadow::gen_build_in`: writes the aggregate dump function, then the
metadata-summary function. -/
def gen_build_in (m : Registry) (gen_const_fns : List String) : List Event :=
  [Event.file (everything_define m gen_const_fns ++ "\n"),
   Event.file (cargo_metadata_fn m ++ "\n")]

/-- `Shadow::write_all`: header, then constants (with trigger directives),
then the chosen version functions, then the aggregate dump and metadata
summary. -/
def write_all (now : String) (pattern : BuildPattern) (out_path : String)
    (m : Registry) : Option (SdResult (List Event)) :=
  match gen_const pattern out_path m with
  | Option.none => Option.none
  | some (Except.error e) => some (Except.error e)
  | some (Except.ok cs) =>
    some (Except.ok (gen_header now ++ cs ++ gen_version_events m
      ++ gen_build_in m gen_version_returns))

/-- The banner line `Shadow::hook` writes before invoking the caller's
function (`writeln!(&self.f, "\n{desc}\n")`). -/
def hook_banner_text : String :=
  "\n" ++ "// Below code generated by project custom from by build.rs" ++ "\n" ++ "\n"

/-- `Shadow::hook`: write the banner, invoke the caller-supplied function
(modelled by its outcome `hf`: an error, or the lines it appends), and
propagate its result unchanged. -/
def hook (hf : SdResult (List String)) : List Event × SdResult Unit :=
  let banner := Event.file hook_banner_text
  match hf with
  | Except.error e => ([banner, Event.hookCall], Except.error e)
  | Except.ok lines => ([banner, Event.hookCall] ++ lines.map Event.file, Except.ok ())

/-- Number of hook invocations recorded in a trace. -/
def hook_calls (evs : List Event) : Nat :=
  evs.countP (fun e => e == Event.hookCall)

/-- The merge step of `Shadow::build_inner`: start from the
version-control facts, then insert project metadata, then system
environment facts (later sources overwrite earlier ones). -/
def merged_map (git project env : Registry) : Registry :=
  let m1 := project.foldl (fun m kv => btree_insert m kv.1 kv.2) git
  env.foldl (fun m kv => btree_insert m kv.1 kv.2) m1

/-- `Shadow::build_inner` after construction of the output file (whose
path is `out_file out_path`): merge the sources, apply the deny filter,
write everything, then run the hook if one was supplied.  The result is
`none` on a panic, otherwise the event trace paired with the returned
`SdResult`. -/
def build_inner (now : String) (pattern : BuildPattern) (out_path : String)
    (deny : List String) (git project env : Registry)
    (hookFn : Option (SdResult (List String))) :
    Option (List Event × SdResult Unit) :=
  let merged := merged_map git project env
  let m := filter_deny deny merged
  match write_all now pattern out_path m with
  | Option.none => Option.none
  | some (Except.error e) => some ([], Except.error e)
  | some (Except.ok evs) =>
    match hookFn with
    | Option.none => some (evs, Except.ok ())
    | some hf => some (evs ++ (hook hf).1, (hook hf).2)

/-! ### Helper lemmas about the registry operations -/

theorem btree_get_remove {α : Type} (m : List (String × α)) (k' k : String) :
    btree_get (btree_remove m k') k
      = if k = k' then Option.none else btree_get m k := by
  induction m with
  | nil => simp only [btree_remove, List.filter_nil, btree_get]; split <;> rfl
  | cons hd tl ih =>
    obtain ⟨a, b⟩ := hd
    by_cases hak' : a = k'
    · subst hak'
      by_cases hk : k = a
      · subst hk
        simp [List.filter_cons, btree_get, btree_remove] at ih ⊢
        exact ih
      · have h2 : ¬(a = k) := fun h => hk h.symm
        simp [List.filter_cons, btree_get, btree_remove, hk, h2] at ih ⊢
        exact ih
    · by_cases hk : k = a
      · subst hk
        have h2 : ¬(k = k') := fun h => hak' h
        simp [btree_remove, List.filter_cons, btree_get, bne_iff_ne, hak', h2]
      · have h2 : ¬(a = k) := fun h => hk h.symm
        simp only [btree_remove] at ih
        simp [btree_remove, List.filter_cons, btree_get, bne_iff_ne, hak', h2]
        exact ih

theorem filter_deny_eq_filter (deny : List String) (m : Registry) :
    filter_deny deny m = m.filter (fun kv => !(deny.contains kv.1)) := by
  induction deny generalizing m with
  | nil => simp [filter_deny]
  | cons d rest ih =>
    have step : filter_deny (d :: rest) m = filter_deny rest (btree_remove m d) := rfl
    rw [step, ih, btree_remove, List.filter_filter]
    apply List.filter_congr
    intro kv _
    by_cases h : kv.1 = d
    · subst h; simp
    · simp [List.contains_cons, bne_iff_ne, h, Ne.symm h]

theorem filter_deny_get (deny : List String) (m : Registry) (k : String) :
    btree_get (filter_deny deny m) k
      = if k ∈ deny then Option.none else btree_get m k := by
  induction deny generalizing m with
  | nil => simp [filter_deny]
  | cons d rest ih =>
    have step : filter_deny (d :: rest) m = filter_deny rest (btree_remove m d) := rfl
    rw [step, ih, btree_get_remove]
    by_cases hkd : k = d
    · subst hkd; simp
    · by_cases hkr : k ∈ rest <;> simp [hkd, hkr]

theorem mem_keys_filter_deny (deny : List String) (m : Registry) (k : String) :
    k ∈ btree_keys (filter_deny deny m) ↔
      (∃ kv ∈ m, kv.1 = k) ∧ k ∉ deny := by
  rw [filter_deny_eq_filter]
  simp only [btree_keys, List.mem_map]
  constructor
  · rintro ⟨kv, hmem, hk⟩
    rw [List.mem_filter] at hmem
    subst hk
    exact ⟨⟨kv, hmem.1, rfl⟩, by simpa using hmem.2⟩
  · rintro ⟨⟨kv, hmem, hk⟩, hnd⟩
    subst hk
    exact ⟨kv, List.mem_filter.mpr ⟨hmem, by simpa using hnd⟩, rfl⟩

/-! ### Helper lemmas about paths, emission and the hook -/

theorem is_absolute_append (p q : String) (h : is_absolute p = true) :
    is_absolute (p ++ q) = true := by
  unfold is_absolute at *
  rw [String.data_append]
  generalize hp : p.data = l at h ⊢
  cases l with
  | nil => simp at h
  | cons c cs => simpa using h

theorem write_const_ok (k : ShadowConst) (v : ConstVal)
    (h : v.t = ConstType.bool → (parse_bool v.v).isSome = true) :
    ∃ ls, write_const k v = some (Except.ok ls)
      ∧ const_lines k v = ls.map Event.file := by
  obtain ⟨t, vv, dd⟩ := v
  cases t with
  | str => exact ⟨_, rfl, rfl⟩
  | slice => exact ⟨_, rfl, rfl⟩
  | bool =>
    cases hp : parse_bool vv with
    | none => have := h rfl; rw [hp] at this; simp at this
    | some b =>
      have hwc : write_const k ⟨ConstType.bool, vv, dd⟩
          = some (Except.ok ["#[doc=r#\"" ++ dd ++ "\"#]" ++ "\n",
              ("#[allow(dead_code)]\n" ++ CARGO_CLIPPY_ALLOW_ALL ++ "\npub const "
               ++ to_ascii_uppercase k ++ " :" ++ ConstType.bool.display ++ " = "
               ++ (if b then "true" else "false") ++ ";") ++ "\n" ++ "\n"]) := by
        simp [write_const, hp]
      exact ⟨_, hwc, by simp [const_lines, hwc]⟩

theorem write_consts_ok (m : Registry)
    (h : ∀ kv ∈ m, kv.2.t = ConstType.bool → (parse_bool kv.2.v).isSome = true) :
    write_consts m = some (Except.ok (const_section m)) := by
  induction m with
  | nil => rfl
  | cons kv rest ih =>
    obtain ⟨k, v⟩ := kv
    obtain ⟨ls, hwc, hcl⟩ :=
      write_const_ok k v (h (k, v) (List.mem_cons_self _ _))
    have hrest := ih (fun x hx => h x (List.mem_cons_of_mem _ hx))
    simp [write_consts, hwc, hrest, const_section, hcl]

theorem hook_calls_append (a b : List Event) :
    hook_calls (a ++ b) = hook_calls a + hook_calls b :=
  List.countP_append _ a b

theorem hook_calls_map_file (ls : List String) :
    hook_calls (ls.map Event.file) = 0 := by
  rw [hook_calls, List.countP_eq_zero]
  intro a ha
  obtain ⟨s, _, rfl⟩ := List.mem_map.mp ha
  simp [beq_iff_eq]

theorem hook_calls_map_dir (ls : List String) :
    hook_calls (ls.map Event.dir) = 0 := by
  rw [hook_calls, List.countP_eq_zero]
  intro a ha
  obtain ⟨s, _, rfl⟩ := List.mem_map.mp ha
  simp [beq_iff_eq]

theorem write_consts_hook_calls (m : Registry) (evs : List Event)
    (h : write_consts m = some (Except.ok evs)) : hook_calls evs = 0 := by
  induction m generalizing evs with
  | nil =>
    simp only [write_consts, Option.some.injEq] at h
    cases h
    rfl
  | cons kv rest ih =>
    obtain ⟨k, v⟩ := kv
    simp only [write_consts] at h
    cases hwc : write_const k v with
    | none => rw [hwc] at h; cases h
    | some r =>
      rw [hwc] at h
      cases r with
      | error e => cases h
      | ok lines =>
        cases hrest : write_consts rest with
        | none => rw [hrest] at h; cases h
        | some r2 =>
          rw [hrest] at h
          cases r2 with
          | error e => cases h
          | ok evs2 =>
            simp only [Option.some.injEq, Except.ok.injEq] at h
            subst h
            rw [hook_calls_append, hook_calls_map_file, ih evs2 hrest]

theorem gen_header_hook_calls (now : String) : hook_calls (gen_header now) = 0 := by
  simp [gen_header, hook_calls, List.countP_cons, beq_iff_eq]

theorem gen_version_events_hook_calls (m : Registry) :
    hook_calls (gen_version_events m) = 0 := by
  simp [gen_version_events, hook_calls, List.countP_cons, beq_iff_eq]

theorem gen_build_in_hook_calls (m : Registry) (fns : List String) :
    hook_calls (gen_build_in m fns) = 0 := by
  simp [gen_build_in, hook_calls, List.countP_cons, beq_iff_eq]

theorem write_all_hook_calls (now : String) (pattern : BuildPattern)
    (op : String) (m : Registry) (evs : List Event)
    (h : write_all now pattern op m = some (Except.ok evs)) :
    hook_calls evs = 0 := by
  simp only [write_all, gen_const] at h
  cases hw : write_consts m with
  | none => rw [hw] at h; cases h
  | some r =>
    rw [hw] at h
    cases r with
    | error e => cases h
    | ok cs =>
      simp only [Option.some.injEq, Except.ok.injEq] at h
      subst h
      simp only [hook_calls_append, hook_calls_map_dir,
        gen_header_hook_calls, gen_version_events_hook_calls,
        gen_build_in_hook_calls, write_consts_hook_calls m cs hw]

/-! ### Claim theorems -/

/-- C1: for every registry, `Shadow::gen_version` selects exactly one
version-definition pair: the branch-based pair (version function and
clap-style long-version function) when the `TAG` identifier is absent or
maps to an empty value, the tag-based pair when it is present and
non-empty; the two pairs are distinct, so never both and never neither. -/
theorem gen_version_selects_exactly_one_pair (m : Registry) :
    ((btree_get m TAG = Option.none
        ∨ ∃ tag, btree_get m TAG = some tag ∧ tag.v.isEmpty = true) →
      gen_version_pair m = (version_branch_const, clap_long_version_branch_const))
    ∧ ((∃ tag, btree_get m TAG = some tag ∧ tag.v.isEmpty = false) →
      gen_version_pair m = (version_tag_const, clap_long_version_tag_const))
    ∧ (version_branch_const, clap_long_version_branch_const)
        ≠ ((version_tag_const, clap_long_version_tag_const) : String × String) := by
  refine ⟨?_, ?_, by decide⟩
  · rintro (h | ⟨tag, hget, hemp⟩)
    · simp [gen_version_pair, h]
    · simp [gen_version_pair, hget, hemp]
  · rintro ⟨tag, hget, hemp⟩
    simp [gen_version_pair, hget, hemp]

/-- Witness for C1: the empty registry, a registry with a non-empty `TAG`,
and a registry with an empty `TAG`. -/
theorem gen_version_selects_exactly_one_pair_w :
    gen_version_pair [] = (version_branch_const, clap_long_version_branch_const)
    ∧ gen_version_pair [(TAG, ⟨ConstType.str, "v1.2.0", "tag"⟩)]
        = (version_tag_const, clap_long_version_tag_const)
    ∧ gen_version_pair [(TAG, ⟨ConstType.str, "", "tag"⟩)]
        = (version_branch_const, clap_long_version_branch_const) :=
  ⟨(gen_version_selects_exactly_one_pair []).1 (Or.inl rfl),
   (gen_version_selects_exactly_one_pair _).2.1
     ⟨⟨ConstType.str, "v1.2.0", "tag"⟩, rfl, rfl⟩,
   (gen_version_selects_exactly_one_pair _).1
     (Or.inr ⟨⟨ConstType.str, "", "tag"⟩, rfl, rfl⟩)⟩

/-- C2 (counterexample): a `Bool`-kind constant whose raw value does not
parse is NOT surfaced to the caller as a `MalformedConstant` error — the
`val.v.parse::<bool>().unwrap()` in `Shadow::write_const` panics, modelled
as `Option.none` (an `SdResult` error surfaced to the caller would be
`some (Except.error _)`). -/
theorem write_const_notabool_panics :
    write_const "BUILD_X" ⟨ConstType.bool, "notabool", "flag"⟩ = Option.none := by
  rfl

/-- C2 (amended): for every constant of kind `Bool` whose raw value does
not parse as a boolean, emission fails fatally — the emitter panics on the
failed parse, so the value is neither coerced to `false` nor silently
defaulted; but the failure is a panic, not a `MalformedConstant` error
value returned to the caller. -/
theorem write_const_bool_parse_failure_is_panic (k : ShadowConst)
    (val : ConstVal) (ht : val.t = ConstType.bool)
    (hp : parse_bool val.v = Option.none) :
    write_const k val = Option.none := by
  obtain ⟨t, vv, dd⟩ := val
  simp only at ht hp
  subst ht
  simp [write_const, hp]

/-- Witness for C2's amended theorem at another unparseable raw value. -/
theorem write_const_bool_parse_failure_is_panic_w :
    write_const "BUILD_Y" ⟨ConstType.bool, "maybe", "flag"⟩ = Option.none :=
  write_const_bool_parse_failure_is_panic "BUILD_Y"
    ⟨ConstType.bool, "maybe", "flag"⟩ rfl rfl

/-- C3: for every registry and deny set, the deny-filtered registry
contains no denied identifier (lookup yields nothing) and maps every
non-denied key to its original value unchanged. -/
theorem filter_deny_removes_exactly_denied (deny : List String) (m : Registry)
    (k : String) :
    btree_get (filter_deny deny m) k
      = if k ∈ deny then Option.none else btree_get m k :=
  filter_deny_get deny m k

/-- C4: deny-filtering is idempotent — filtering twice with the same deny
set yields the same registry as filtering once. -/
theorem filter_deny_idempotent (deny : List String) (m : Registry) :
    filter_deny deny (filter_deny deny m) = filter_deny deny m := by
  simp only [filter_deny_eq_filter, List.filter_filter]
  apply List.filter_congr
  intro kv _
  exact Bool.and_self _

/-- C5: a denied identifier is excluded identically from the rebuild
trigger computation and from emission: in `Shadow::build_inner` the deny
filter runs before `write_all`, and `Shadow::gen_const` passes the key set
of that same filtered registry to `rerun_if` and then emits the constants
from it — so after the filter a denied key is in neither the key set nor
the registry. -/
theorem deny_excluded_from_triggers_and_output (deny : List String)
    (merged : Registry) (k : String) (hk : k ∈ deny) :
    k ∉ btree_keys (filter_deny deny merged)
    ∧ btree_get (filter_deny deny merged) k = Option.none := by
  constructor
  · intro hmem
    exact ((mem_keys_filter_deny deny merged k).mp hmem).2 hk
  · rw [filter_deny_get]
    simp [hk]

/-- Witness for C5: the repository test's deny set `{CARGO_TREE}`. -/
theorem deny_excluded_from_triggers_and_output_w :
    "CARGO_TREE" ∉ btree_keys (filter_deny ["CARGO_TREE"]
        [("CARGO_TREE", ⟨ConstType.str, "tree", "cargo tree"⟩)])
    ∧ btree_get (filter_deny ["CARGO_TREE"]
        [("CARGO_TREE", ⟨ConstType.str, "tree", "cargo tree"⟩)]) "CARGO_TREE"
      = Option.none :=
  deny_excluded_from_triggers_and_output ["CARGO_TREE"] _ "CARGO_TREE"
    (List.mem_cons_self _ _)

/-- C6 (counterexample): for the relative output directory `"foo"` (no
trailing separator) the computed artifact path is `foo/foo/shadow.rs`,
duplicating the directory — not `foo/shadow.rs` as the claim states for
every configured output directory path. -/
theorem out_file_duplicates_relative_dir :
    out_file "foo" = "foo/foo/shadow.rs"
    ∧ out_file "foo" ≠ "foo" ++ "/" ++ DEFINE_SHADOW_RS := by
  constructor
  · rfl
  · decide

/-- C6 (amended): the artifact path is the output directory joined with
the fixed filename `shadow.rs` whenever the directory ends with a path
separator, and also for absolute directories without a trailing separator
(the host-provided `OUT_DIR` case); a relative directory without trailing
separator instead has its directory component duplicated. -/
theorem out_file_joins_fixed_filename (p : String) :
    (ends_with_slash p = true → out_file p = p ++ DEFINE_SHADOW_RS)
    ∧ (is_absolute p = true → ends_with_slash p = false →
        out_file p = p ++ "/" ++ DEFINE_SHADOW_RS) := by
  constructor
  · intro h
    have habs : is_absolute DEFINE_SHADOW_RS = false := by decide
    simp [out_file, path_join, h, habs]
  · intro habs hslash
    have habs2 : is_absolute (p ++ "/" ++ DEFINE_SHADOW_RS) = true :=
      is_absolute_append _ _ (is_absolute_append _ _ habs)
    simp [out_file, path_join, hslash, habs2]

/-- Witness for C6's amended theorem: a slash-terminated directory and an
absolute directory. -/
theorem out_file_joins_fixed_filename_w :
    out_file "a/" = "a/" ++ DEFINE_SHADOW_RS
    ∧ out_file "/build/out" = "/build/out" ++ "/" ++ DEFINE_SHADOW_RS :=
  ⟨(out_file_joins_fixed_filename "a/").1 (by decide),
   (out_file_joins_fixed_filename "/build/out").2 (by decide) (by decide)⟩

/-- C10: CI detection checks the GitLab signal before the GitHub signal,
so when both `GITLAB_CI` and `GITHUB_ACTIONS` are `"true"` the
classification is `Gitlab`; when neither equals `"true"` it is `None`
(the detection is a total function — it never fails). -/
theorem try_ci_gitlab_precedence_and_default (env : List (String × String)) :
    (btree_get env "GITLAB_CI" = some "true" →
       btree_get env "GITHUB_ACTIONS" = some "true" →
       try_ci env = CiType.gitlab)
    ∧ (btree_get env "GITLAB_CI" ≠ some "true" →
       btree_get env "GITHUB_ACTIONS" ≠ some "true" →
       try_ci env = CiType.none) := by
  constructor
  · intro h1 _
    simp [try_ci, h1]
  · intro h1 h2
    simp only [try_ci]
    cases hg : btree_get env "GITLAB_CI" with
    | none =>
      cases hh : btree_get env "GITHUB_ACTIONS" with
      | none => simp
      | some c =>
        have hc : ¬(c = "true") := fun h => h2 (by rw [hh, h])
        simp [hc]
    | some c =>
      have hc : ¬(c = "true") := fun h => h1 (by rw [hg, h])
      cases hh : btree_get env "GITHUB_ACTIONS" with
      | none => simp [hc]
      | some c2 =>
        have hc2 : ¬(c2 = "true") := fun h => h2 (by rw [hh, h])
        simp [hc, hc2]

/-- Witness for C10: both signals set, and a snapshot where neither
equals `"true"`. -/
theorem try_ci_gitlab_precedence_and_default_w :
    try_ci [("GITHUB_ACTIONS", "true"), ("GITLAB_CI", "true")] = CiType.gitlab
    ∧ try_ci [("GITLAB_CI", "maybe")] = CiType.none :=
  ⟨(try_ci_gitlab_precedence_and_default _).1 rfl rfl,
   (try_ci_gitlab_precedence_and_default _).2 (by decide) (by decide)⟩

/-- C7: for every run whose registry satisfies the `BTreeMap` invariant
(keys strictly sorted) and whose `Bool` values all parse, `write_all`
succeeds and emits exactly, in this order: the provenance header (with the
timestamp); the rebuild-trigger directives, before any constant body; one
documentation line plus one typed definition per registry entry in map
(= sorted key) order; the two chosen version-function bodies; the
aggregate dump function covering every non-filtered entry plus the two
version-function identifiers in the same order; and the metadata-summary
function last. -/
theorem write_all_emission_order (now : String) (pattern : BuildPattern)
    (out_path : String) (m : Registry)
    (hsorted : sorted_keys (btree_keys m) = true)
    (hbool : ∀ kv ∈ m, kv.2.t = ConstType.bool →
      (parse_bool kv.2.v).isSome = true) :
    write_all now pattern out_path m = some (Except.ok (
      gen_header now
      ++ (rerun_if pattern (btree_keys m) out_path).map Event.dir
      ++ const_section m
      ++ gen_version_events m
      ++ gen_build_in m gen_version_returns)) := by
  simp only [write_all, gen_const, write_consts_ok m hbool]
  simp [List.append_assoc]

/-- Witness for C7: a two-entry sorted registry with a `Bool` and a `Str`
constant, under the `RealTime` pattern. -/
theorem write_all_emission_order_w :
    write_all "ts" BuildPattern.realTime "od"
        [("A", ⟨ConstType.bool, "true", "da"⟩), ("B", ⟨ConstType.str, "hi", "db"⟩)]
      = some (Except.ok (
        gen_header "ts"
        ++ (rerun_if BuildPattern.realTime
              (btree_keys [("A", (⟨ConstType.bool, "true", "da"⟩ : ConstVal)),
                ("B", ⟨ConstType.str, "hi", "db"⟩)]) "od").map Event.dir
        ++ const_section [("A", ⟨ConstType.bool, "true", "da"⟩),
              ("B", ⟨ConstType.str, "hi", "db"⟩)]
        ++ gen_version_events [("A", ⟨ConstType.bool, "true", "da"⟩),
              ("B", ⟨ConstType.str, "hi", "db"⟩)]
        ++ gen_build_in [("A", ⟨ConstType.bool, "true", "da"⟩),
              ("B", ⟨ConstType.str, "hi", "db"⟩)] gen_version_returns)) :=
  write_all_emission_order "ts" BuildPattern.realTime "od"
    [("A", ⟨ConstType.bool, "true", "da"⟩), ("B", ⟨ConstType.str, "hi", "db"⟩)]
    (by decide) (by decide)

/-- C8: emission is deterministic up to the header timestamp — for the
same registry, pattern and output path, two runs panic together, error
together, and on success produce traces that are identical except that
the single header event carries each run's own timestamp between the
fixed prefix and suffix. -/
theorem write_all_deterministic_up_to_timestamp (ts1 ts2 : String)
    (pattern : BuildPattern) (out_path : String) (m : Registry) :
    (write_all ts1 pattern out_path m = Option.none
       ↔ write_all ts2 pattern out_path m = Option.none)
    ∧ (∀ e, write_all ts1 pattern out_path m = some (Except.error e)
       ↔ write_all ts2 pattern out_path m = some (Except.error e))
    ∧ (∀ evs1 evs2, write_all ts1 pattern out_path m = some (Except.ok evs1) →
        write_all ts2 pattern out_path m = some (Except.ok evs2) →
        evs1.head? = some (Event.file (header_front ++ ts1 ++ header_suffix))
        ∧ evs2.head? = some (Event.file (header_front ++ ts2 ++ header_suffix))
        ∧ evs1.tail = evs2.tail) := by
  simp only [write_all]
  cases hg : gen_const pattern out_path m with
  | none => simp
  | some r =>
    cases r with
    | error e => simp
    | ok cs =>
      refine ⟨by simp, by simp, ?_⟩
      intro evs1 evs2 h1 h2
      simp only [Option.some.injEq, Except.ok.injEq] at h1 h2
      subst h1
      subst h2
      exact ⟨rfl, rfl, rfl⟩

/-- Witness for C8: two timestamps over the empty registry. -/
theorem write_all_deterministic_up_to_timestamp_w :
    (gen_header "x" ++ (([] : List Event) ++ [])
        ++ gen_version_events [] ++ gen_build_in [] gen_version_returns).head?
      = some (Event.file (header_front ++ "x" ++ header_suffix))
    ∧ (gen_header "y" ++ (([] : List Event) ++ [])
        ++ gen_version_events [] ++ gen_build_in [] gen_version_returns).head?
      = some (Event.file (header_front ++ "y" ++ header_suffix))
    ∧ (gen_header "x" ++ (([] : List Event) ++ [])
        ++ gen_version_events [] ++ gen_build_in [] gen_version_returns).tail
      = (gen_header "y" ++ (([] : List Event) ++ [])
        ++ gen_version_events [] ++ gen_build_in [] gen_version_returns).tail :=
  (write_all_deterministic_up_to_timestamp "x" "y" BuildPattern.lazy "o" []).2.2
    _ _ rfl rfl

/-- C9: with a caller-supplied hook, `Shadow::build_inner` invokes the hook
exactly once, strictly after core emission completed successfully (a panic
during emission reaches no hook call); the custom-section banner is
written first, then the hook function is called, and its result — success
or error — is returned to the caller unchanged. -/
theorem hook_runs_once_after_emission (now : String) (pattern : BuildPattern)
    (op : String) (deny : List String) (git project env : Registry)
    (hf : SdResult (List String)) :
    (write_all now pattern op (filter_deny deny (merged_map git project env))
        = Option.none →
      build_inner now pattern op deny git project env (some hf) = Option.none)
    ∧ (∀ core,
        write_all now pattern op (filter_deny deny (merged_map git project env))
          = some (Except.ok core) →
        build_inner now pattern op deny git project env (some hf)
            = some (core ++ (hook hf).1, (hook hf).2)
        ∧ hook_calls core = 0
        ∧ hook_calls (core ++ (hook hf).1) = 1
        ∧ (hook hf).1.head? = some (Event.file hook_banner_text)
        ∧ (hook hf).1.tail.head? = some Event.hookCall
        ∧ (hook hf).2 = Except.map (fun _ => ()) hf) := by
  constructor
  · intro h
    simp [build_inner, h]
  · intro core h
    have hcalls0 : hook_calls core = 0 := write_all_hook_calls _ _ _ _ _ h
    have hook1 : hook_calls (hook hf).1 = 1 := by
      cases hf with
      | error e => rfl
      | ok lines =>
        show hook_calls ([Event.file hook_banner_text, Event.hookCall]
          ++ lines.map Event.file) = 1
        rw [hook_calls_append, hook_calls_map_file]
        rfl
    refine ⟨?_, hcalls0, ?_, ?_, ?_, ?_⟩
    · simp [build_inner, h]
    · rw [hook_calls_append, hcalls0, hook1]
    · cases hf <;> rfl
    · cases hf <;> rfl
    · cases hf <;> rfl

/-- Witness for C9: an empty configuration with a hook that fails; the
returned result is the hook's own error, unchanged. -/
theorem hook_runs_once_after_emission_w :
    build_inner "t" BuildPattern.lazy "o" [] [] [] []
        (some (Except.error (SdError.ioError "boom")))
      = some ((gen_header "t" ++ (([] : List Event) ++ []) ++ gen_version_events []
              ++ gen_build_in [] gen_version_returns)
              ++ (hook (Except.error (SdError.ioError "boom"))).1,
             (hook (Except.error (SdError.ioError "boom"))).2)
    ∧ hook_calls (gen_header "t" ++ (([] : List Event) ++ []) ++ gen_version_events []
              ++ gen_build_in [] gen_version_returns) = 0
    ∧ hook_calls ((gen_header "t" ++ (([] : List Event) ++ []) ++ gen_version_events []
              ++ gen_build_in [] gen_version_returns)
              ++ (hook (Except.error (SdError.ioError "boom"))).1) = 1
    ∧ (hook (Except.error (SdError.ioError "boom"))).1.head?
        = some (Event.file hook_banner_text)
    ∧ (hook (Except.error (SdError.ioError "boom"))).1.tail.head?
        = some Event.hookCall
    ∧ (hook (Except.error (SdError.ioError "boom"))).2
        = Except.map (fun _ => ())
            (Except.error (SdError.ioError "boom") : SdResult (List String)) :=
  (hook_runs_once_after_emission "t" BuildPattern.lazy "o" [] [] [] []
    (Except.error (SdError.ioError "boom"))).2 _ rfl

end ShadowRs
